import Mathlib

/-!
Verification of the MachineHealthCheck reconciliation engine of the
machine-api-operator repository.

The repository ships the controller's test suite
(pkg/controller/machinehealthcheck/machinehealthcheck_controller_test.go)
but the controller implementation file itself is not present, so the
operational definitions below are modelled from the natural-language
specification (spec.md sections 3, 4.1, 4.2, 4.3 and 4.4), kept consistent
with every behaviour pinned by the test suite.  Times are modelled as
integer seconds; the wall clock is sampled once per evaluation and passed
explicitly, following the numeric semantics of spec section 4.2.
-/

namespace MachineHealthCheckModel

/-- Modelled from the spec: string constants of the wire contract (spec
section 6); the controller file holding the Go constant block is missing
from the sources.  The control-plane marker label on nodes. -/
def nodeMasterLabel : String := "node-role.kubernetes.io/master"

/-- Modelled from the spec: the role label key carried by machines. -/
def machineRoleLabel : String := "machine.openshift.io/cluster-api-machine-role"

/-- Modelled from the spec: the control-plane role value of the machine role label. -/
def machineMasterRole : String := "master"

/-- Modelled from the spec: the node-to-machine back-reference annotation key. -/
def machineAnnotationKey : String := "machine.openshift.io/machine"

/-- Modelled from the spec: the reboot-request annotation key upserted on a
node by the protect-and-reboot remediation. -/
def machineRebootAnnotationKey : String := "healthchecking.openshift.io/machine-remediation-reboot"

/-- Modelled from the spec: the terminal failure lifecycle phase of a machine. -/
def machinePhaseFailed : String := "Failed"

/-- Modelled from the spec: the owner-reference kind of the scaling-group
controller expected to replace deleted machines. -/
def ownerControllerKind : String := "MachineSet"

/-- Modelled from the spec: the fixed grace period (in seconds) allowed for
a newly created Machine to acquire a Node reference (spec glossary,
"grace period for node acquisition"); ten minutes. -/
def timeoutForMachineToHaveNode : Int := 600

/-- Key lookup in an association list of labels or annotations. -/
def lookupKey (l : List (String × String)) (k : String) : Option String :=
  (l.find? (fun p => p.1 = k)).map (fun p => p.2)

/-- A timestamped node condition (type, status, last-transition-time in
integer seconds), spec section 3. -/
structure NodeCondition where
  condType : String
  status : String
  lastTransitionTime : Int
deriving Repr, DecidableEq

/-- A Node object: identity, labels, annotations and conditions (spec
section 3).  The uid is empty exactly on the empty/not-found placeholder
object of spec section 4.2 step 3 (a stored node always carries a uid). -/
structure Node where
  name : String
  uid : String
  labels : List (String × String)
  annotations : List (String × String)
  conditions : List NodeCondition
deriving Repr, DecidableEq

/-- An owner reference of a machine (only the kind matters here). -/
structure OwnerReference where
  kind : String
deriving Repr, DecidableEq

/-- A Machine object (spec section 3): identity, labels, owner links, an
optional node reference (the referenced node name), a last-updated
timestamp and a lifecycle phase. -/
structure Machine where
  name : String
  ns : String
  labels : List (String × String)
  ownerReferences : List OwnerReference
  nodeRef : Option String
  lastUpdated : Option Int
  phase : Option String
deriving Repr, DecidableEq

/-- One unhealthy-condition rule of a policy: condition type, required
status, and a timeout given as a duration string (spec section 3). -/
structure UnhealthyCondition where
  condType : String
  status : String
  timeout : String
deriving Repr, DecidableEq

/-- A label selector by exact label matches. -/
structure Selector where
  matchLabels : List (String × String)
deriving Repr, DecidableEq

/-- A MachineHealthCheck policy (spec section 3). -/
structure MachineHealthCheck where
  name : String
  ns : String
  selector : Selector
  unhealthyConditions : List UnhealthyCondition
deriving Repr, DecidableEq

/-- The ephemeral evaluation triple (spec section 3): policy, machine,
node-or-absent. -/
structure Target where
  mhc : MachineHealthCheck
  machine : Machine
  node : Option Node
deriving Repr, DecidableEq

/-- The object store visible to the controller: machines, nodes and
policies (spec section 6, Store Client). -/
structure Store where
  machines : List Machine
  nodes : List Node
  mhcs : List MachineHealthCheck
deriving Repr, DecidableEq

/-- Errors of the store and of policy evaluation. -/
inductive StoreError where
  | notFound
  | invalidSelector
  | invalidTimeout (s : String)
deriving Repr, DecidableEq

/-- A character allowed inside a label key or value. -/
def isLabelChar (c : Char) : Bool :=
  c.isAlphanum || c = '-' || c = '_' || c = '.'

/-- Modelled from the spec: validity of a label key (malformed selector
detection, spec section 4.1 step 1); keys additionally allow a slash. -/
def validLabelKey (s : String) : Bool :=
  s.length > 0 && s.toList.all (fun c => isLabelChar c || c = '/')

/-- Modelled from the spec: validity of a label value. -/
def validLabelValue (s : String) : Bool :=
  s.toList.all isLabelChar

/-- Modelled from the spec: a selector is well formed when every match
label has a valid key and value. -/
def selectorValid (sel : Selector) : Bool :=
  sel.matchLabels.all (fun p => validLabelKey p.1 && validLabelValue p.2)

/-- A label set satisfies a selector when every required pair is present. -/
def matchesSelector (sel : Selector) (labels : List (String × String)) : Bool :=
  sel.matchLabels.all (fun p => lookupKey labels p.1 = some p.2)

/-- Decimal value of a digit string. -/
def charsToNat (cs : List Char) : Nat :=
  cs.foldl (fun acc c => acc * 10 + (c.toNat - 48)) 0

/-- Modelled from the spec: the timeout-as-duration-string parser (spec
section 6); accepts an integer count of seconds, minutes or hours and
rejects everything else. -/
def parseDuration (s : String) : Option Int :=
  if s.length < 2 then none
  else
    let digits := (s.dropRight 1).toList
    if digits.all (fun c => c.isDigit) then
      let n := charsToNat digits
      if s.back = 's' then some (Int.ofNat n)
      else if s.back = 'm' then some (Int.ofNat n * 60)
      else if s.back = 'h' then some (Int.ofNat n * 3600)
      else none
    else none

/-- Dereference an optional string, empty when absent. -/
def derefStringPointer (p : Option String) : String :=
  match p with
  | none => ""
  | some s => s

/-- First node condition of the given type, if any. -/
def getNodeCondition (node : Node) (condType : String) : Option NodeCondition :=
  node.conditions.find? (fun c => c.condType = condType)

/-- Minimum of a list of durations; zero on the empty list. -/
def minDuration (ds : List Int) : Int :=
  match ds with
  | [] => 0
  | d :: rest => rest.foldl min d

/-- Modelled from the spec: the per-rule scan of section 4.2 step 4.  For
each rule whose condition type is present on the node the timeout string
is parsed (parse failure aborts with an error); if the condition holds the
required status and has done so for at least the timeout the target is
unhealthy (first such rule wins, recheck 0), otherwise the remaining delay
is accumulated; with no rule triggered the result is healthy with the
minimum accumulated delay (section 4.2 step 5). -/
def evalRules (node : Node) (now : Int) :
    List UnhealthyCondition → List Int → Except StoreError (Bool × Int)
  | [], acc => .ok (false, minDuration acc)
  | c :: rest, acc =>
    match getNodeCondition node c.condType with
    | none => evalRules node now rest acc
    | some nc =>
      match parseDuration c.timeout with
      | none => .error (.invalidTimeout c.timeout)
      | some t =>
        if nc.status = c.status then
          if t ≤ now - nc.lastTransitionTime then .ok (true, 0)
          else evalRules node now rest (acc ++ [t - (now - nc.lastTransitionTime)])
        else evalRules node now rest acc

/-- Modelled from the spec: the health evaluator (spec section 4.2), with
the evaluation precedence: terminal failure phase; absent node against the
node-acquisition grace period (an unset last-updated timestamp yields
healthy with the full grace period as recheck delay, spec section 8
Scenario A); an empty placeholder node (empty uid) is immediately
unhealthy; otherwise the unhealthy-condition rules are scanned. -/
def Target.isUnhealthy (t : Target) (now : Int) : Except StoreError (Bool × Int) :=
  if derefStringPointer t.machine.phase = machinePhaseFailed then .ok (true, 0)
  else
    match t.node with
    | none =>
      match t.machine.lastUpdated with
      | none => .ok (false, timeoutForMachineToHaveNode)
      | some lu =>
        if lu + timeoutForMachineToHaveNode < now then .ok (true, 0)
        else .ok (false, timeoutForMachineToHaveNode - (now - lu))
    | some n =>
      if n.uid = "" then .ok (true, 0)
      else evalRules n now t.mhc.unhealthyConditions []

/-- Whether the target is control-plane: the node carries the control-plane
marker label, or the machine carries the role label with the master value
(spec section 4.3 step 1). -/
def Target.isMaster (t : Target) : Bool :=
  (match t.node with
   | some n => (lookupKey n.labels nodeMasterLabel).isSome
   | none => false)
  || lookupKey t.machine.labels machineRoleLabel = some machineMasterRole

/-- Whether the machine is owned by a MachineSet scaling-group controller. -/
def Target.hasMachineSetOwner (t : Target) : Bool :=
  t.machine.ownerReferences.any (fun o => o.kind = ownerControllerKind)

/-- Fetch a machine by namespace and name. -/
def Store.getMachine (s : Store) (ns name : String) : Option Machine :=
  s.machines.find? (fun m => m.ns = ns && m.name = name)

/-- Delete a machine by namespace and name; not-found when absent. -/
def Store.deleteMachine (s : Store) (ns name : String) : Except StoreError Store :=
  if s.machines.any (fun m => m.ns = ns && m.name = name) then
    .ok { s with machines := s.machines.filter (fun m => !(m.ns = ns && m.name = name)) }
  else .error .notFound

/-- Replace the node of the same name, or insert it when absent
(create-or-update, spec section 4.3 step 2). -/
def Store.upsertNode (s : Store) (n : Node) : Store :=
  if s.nodes.any (fun x => x.name = n.name) then
    { s with nodes := s.nodes.map (fun x => if x.name = n.name then n else x) }
  else { s with nodes := s.nodes ++ [n] }

/-- Modelled from the spec: list the machines of the policy's namespace
whose labels satisfy its selector; a malformed selector is an error that
aborts the whole resolution (spec section 4.1 step 1). -/
def getMachinesFromMHC (s : Store) (mhc : MachineHealthCheck) :
    Except StoreError (List Machine) :=
  if selectorValid mhc.selector then
    .ok (s.machines.filter (fun m => m.ns = mhc.ns && matchesSelector mhc.selector m.labels))
  else .error .invalidSelector

/-- Modelled from the spec: resolve the node of one machine (spec section
4.1 step 2): no node reference yields an absent node without error; a
reference to a node that cannot be found is an error for this resolution
step. -/
def getNodeFromMachine (s : Store) (m : Machine) : Except StoreError (Option Node) :=
  match m.nodeRef with
  | none => .ok none
  | some ref =>
    match s.nodes.find? (fun n => n.name = ref) with
    | some n => .ok (some n)
    | none => .error .notFound

/-- The empty placeholder node standing for a referenced-but-missing node
(spec section 4.2 step 3: resolution failure surfaced as an empty object;
it carries the referenced name and an empty uid). -/
def placeholderNode (m : Machine) : Node :=
  { name := derefStringPointer m.nodeRef, uid := "", labels := [],
    annotations := [], conditions := [] }

/-- Build one target per machine; a not-found node becomes an empty
placeholder node on the target (spec sections 4.2 step 3 and 9), any other
node-resolution error propagates. -/
def buildTargets (s : Store) (mhc : MachineHealthCheck) :
    List Machine → Except StoreError (List Target)
  | [] => .ok []
  | m :: rest =>
    match getNodeFromMachine s m with
    | .ok n =>
      match buildTargets s mhc rest with
      | .ok ts => .ok ({ mhc := mhc, machine := m, node := n } :: ts)
      | .error e => .error e
    | .error .notFound =>
      match buildTargets s mhc rest with
      | .ok ts => .ok ({ mhc := mhc, machine := m, node := some (placeholderNode m) } :: ts)
      | .error e => .error e
    | .error e => .error e

/-- Modelled from the spec: target resolution for a policy (spec section
4.1): one target per matching machine, in machine listing order. -/
def getTargetsFromMHC (s : Store) (mhc : MachineHealthCheck) :
    Except StoreError (List Target) :=
  match getMachinesFromMHC s mhc with
  | .error e => .error e
  | .ok ms => buildTargets s mhc ms

/-- Modelled from the spec: the protect-and-reboot remediation (spec
section 4.3 step 2): idempotently upsert the reboot-request annotation on
the node; no error, and no change, when the annotation is already
present. -/
def remediationStrategyReboot (s : Store) (node : Option Node) :
    Except StoreError Store :=
  match node with
  | none => .ok s
  | some n =>
    if (lookupKey n.annotations machineRebootAnnotationKey).isSome then .ok s
    else .ok (s.upsertNode
      { n with annotations := n.annotations ++ [(machineRebootAnnotationKey, "")] })

/-- Modelled from the spec: the remediation engine (spec section 4.3):
control-plane targets get the protect-and-reboot annotation and are never
deleted; a machine with no MachineSet owner is skipped without mutation
(the guard exhibited by the repository's TestHasMachineSetOwner); any
other unhealthy machine is deleted, tolerating already-gone as success
(spec section 4.3 step 4). -/
def remediate (s : Store) (t : Target) : Except StoreError Store :=
  if t.isMaster then remediationStrategyReboot s t.node
  else if t.hasMachineSetOwner then
    match s.deleteMachine t.machine.ns t.machine.name with
    | .ok s2 => .ok s2
    | .error .notFound => .ok s
    | .error e => .error e
  else .ok s

/-- Evaluate every target, aborting the pass on the first evaluation error
(spec section 4.4 step 3). -/
def evalTargets (now : Int) :
    List Target → Except StoreError (List (Target × Bool × Int))
  | [] => .ok []
  | t :: rest =>
    match t.isUnhealthy now with
    | .error e => .error e
    | .ok (u, r) =>
      match evalTargets now rest with
      | .ok l => .ok ((t, u, r) :: l)
      | .error e => .error e

/-- Remediate every unhealthy target in turn (spec section 4.4 step 4). -/
def remediateAll (s : Store) : List Target → Except StoreError Store
  | [] => .ok s
  | t :: rest =>
    match remediate s t with
    | .ok s2 => remediateAll s2 rest
    | .error e => .error e

/-- The positive recheck delays of the healthy targets (spec section 4.4
step 5). -/
def collectRechecks (rs : List (Target × Bool × Int)) : List Int :=
  rs.filterMap (fun r => if r.2.1 then none else if 0 < r.2.2 then some r.2.2 else none)

/-- Modelled from the spec: the reconcile scheduler (spec section 4.4):
fetch the policy (absent policy is benign success), resolve targets,
evaluate each, remediate the unhealthy ones, and return the minimum
positive recheck delay of the healthy targets as the requeue directive. -/
def reconcile (s : Store) (ns name : String) (now : Int) :
    Except StoreError (Store × Int) :=
  match s.mhcs.find? (fun h => h.ns = ns && h.name = name) with
  | none => .ok (s, 0)
  | some mhc =>
    match getTargetsFromMHC s mhc with
    | .error e => .error e
    | .ok targets =>
      match evalTargets now targets with
      | .error e => .error e
      | .ok results =>
        match remediateAll s (results.filterMap
            (fun r => if r.2.1 then some r.1 else none)) with
        | .error e => .error e
        | .ok s2 => .ok (s2, minDuration (collectRechecks results))

/-- Decidable equality of results, used to evaluate concrete runs. -/
instance {ε α : Type} [DecidableEq ε] [DecidableEq α] : DecidableEq (Except ε α) :=
  fun x y =>
    match x, y with
    | .ok a, .ok b =>
      if h : a = b then .isTrue (by rw [h])
      else .isFalse (by intro hh; cases hh; exact h rfl)
    | .error a, .error b =>
      if h : a = b then .isTrue (by rw [h])
      else .isFalse (by intro hh; cases hh; exact h rfl)
    | .ok _, .error _ => .isFalse (by intro hh; cases hh)
    | .error _, .ok _ => .isFalse (by intro hh; cases hh)

/-! ### Concrete fixtures used by witnesses and counterexamples -/

/-- A policy with the single rule Ready/False/300s over the foo=bar selector. -/
def mhcReady300 : MachineHealthCheck :=
  { name := "test", ns := "ns1",
    selector := { matchLabels := [("foo", "bar")] },
    unhealthyConditions := [{ condType := "Ready", status := "False", timeout := "300s" }] }

/-- A plain machine matching mhcReady300, owned by a MachineSet, referencing
node n1 which it has not yet acquired a timestamp for. -/
def machFoo : Machine :=
  { name := "m1", ns := "ns1", labels := [("foo", "bar")],
    ownerReferences := [{ kind := "MachineSet" }], nodeRef := some "n1",
    lastUpdated := none, phase := none }

/-- A stored node whose Ready condition went False at time 0. -/
def nodeReadyFalseAt0 : Node :=
  { name := "n1", uid := "u1", labels := [], annotations := [],
    conditions := [{ condType := "Ready", status := "False", lastTransitionTime := 0 }] }

/-! ### Helper lemmas -/

lemma minDuration_single (x : Int) : minDuration [x] = x := rfl

/-- Evaluating a single-rule policy against a node with exactly the matching
condition reduces to the timeout comparison. -/
lemma evalRules_single (n : Node) (now : Int) (ty st tos : String) (T ltt : Int)
    (hconds : n.conditions = [{ condType := ty, status := st, lastTransitionTime := ltt }])
    (hparse : parseDuration tos = some T) :
    evalRules n now [{ condType := ty, status := st, timeout := tos }] [] =
      if T ≤ now - ltt then .ok (true, 0) else .ok (false, T - (now - ltt)) := by
  unfold evalRules getNodeCondition
  rw [hconds]
  simp only [List.find?_cons, decide_eq_true_eq]
  norm_num
  rw [hparse]
  simp only [if_pos rfl]
  by_cases hT : T ≤ now - ltt
  · rw [if_pos hT, if_pos hT]
  · rw [if_neg hT, if_neg hT]
    unfold evalRules
    rfl

/-- The health evaluator on a target whose machine is not in a failed phase
and whose node is a stored (non-placeholder) node runs the rule scan. -/
lemma isUnhealthy_node_rules (mhc : MachineHealthCheck) (m : Machine) (n : Node)
    (now : Int)
    (hphase : derefStringPointer m.phase ≠ machinePhaseFailed)
    (huid : n.uid ≠ "") :
    Target.isUnhealthy { mhc := mhc, machine := m, node := some n } now =
      evalRules n now mhc.unhealthyConditions [] := by
  unfold Target.isUnhealthy
  rw [if_neg hphase]
  simp only
  rw [if_neg huid]

/-! ### Claim C2 -/

/-- C2: for a target with a present stored node whose single condition
matches the policy rule's type and required status, the target is judged
unhealthy exactly when the elapsed time d since the condition's last
transition satisfies d >= the rule's timeout, and for d < timeout the
evaluator returns healthy with recheckAfter = timeout - d (exact, since
the model samples the clock once per evaluation). -/
theorem isUnhealthy_monotonic_timeout
    (mhc : MachineHealthCheck) (m : Machine) (n : Node)
    (ty st tos : String) (T ltt now : Int)
    (hphase : derefStringPointer m.phase ≠ machinePhaseFailed)
    (huid : n.uid ≠ "")
    (hconds : n.conditions = [{ condType := ty, status := st, lastTransitionTime := ltt }])
    (hrules : mhc.unhealthyConditions = [{ condType := ty, status := st, timeout := tos }])
    (hparse : parseDuration tos = some T) :
    (Target.isUnhealthy { mhc := mhc, machine := m, node := some n } now = .ok (true, 0)
        ↔ T ≤ now - ltt) ∧
    (now - ltt < T →
      Target.isUnhealthy { mhc := mhc, machine := m, node := some n } now
        = .ok (false, T - (now - ltt))) := by
  rw [isUnhealthy_node_rules mhc m n now hphase huid, hrules,
      evalRules_single n now ty st tos T ltt hconds hparse]
  constructor
  · by_cases hT : T ≤ now - ltt
    · simp [hT]
    · simp [hT]
  · intro hlt
    rw [if_neg (not_le.mpr hlt)]

/-- Witness for C2 at a concrete input: rule Ready/False/300s, condition
transitioned at time 0, clock at 400, so d = 400 >= 300 is unhealthy. -/
theorem isUnhealthy_monotonic_timeout_witness :
    (Target.isUnhealthy { mhc := mhcReady300, machine := machFoo, node := some nodeReadyFalseAt0 } 400
        = .ok (true, 0) ↔ (300 : Int) ≤ 400 - 0) ∧
    (400 - 0 < (300 : Int) →
      Target.isUnhealthy { mhc := mhcReady300, machine := machFoo, node := some nodeReadyFalseAt0 } 400
        = .ok (false, 300 - (400 - 0))) :=
  isUnhealthy_monotonic_timeout mhcReady300 machFoo nodeReadyFalseAt0
    "Ready" "False" "300s" 300 0 400 (by decide) (by decide) rfl rfl (by decide)

/-! ### Claim C5 -/

/-- C5 counterexample: a target whose node is absent and whose machine has
an unset last-updated timestamp is judged healthy with the full grace
period as the recheck delay, not unhealthy with recheck 0 as the claim
states. -/
theorem isUnhealthy_absent_node_unset_counterexample :
    Target.isUnhealthy
        { mhc := mhcReady300, machine := { machFoo with nodeRef := none }, node := none } 1000
      = .ok (false, timeoutForMachineToHaveNode) ∧
    Target.isUnhealthy
        { mhc := mhcReady300, machine := { machFoo with nodeRef := none }, node := none } 1000
      ≠ .ok (true, 0) := by
  constructor
  · rfl
  · decide

/-- C5 amended: for a target whose node is absent and machine not in a
failed phase, a set last-updated timestamp whose elapsed time exceeds the
node-acquisition grace period yields unhealthy with recheck 0, while an
unset timestamp yields healthy with the full grace period as recheck. -/
theorem isUnhealthy_absent_node
    (mhc : MachineHealthCheck) (m : Machine) (now lu : Int)
    (hphase : derefStringPointer m.phase ≠ machinePhaseFailed) :
    (m.lastUpdated = some lu → lu + timeoutForMachineToHaveNode < now →
      Target.isUnhealthy { mhc := mhc, machine := m, node := none } now = .ok (true, 0)) ∧
    (m.lastUpdated = none →
      Target.isUnhealthy { mhc := mhc, machine := m, node := none } now
        = .ok (false, timeoutForMachineToHaveNode)) := by
  constructor
  · intro hlu hexp
    unfold Target.isUnhealthy
    rw [if_neg hphase]
    simp only [hlu]
    rw [if_pos hexp]
  · intro hlu
    unfold Target.isUnhealthy
    rw [if_neg hphase]
    simp only [hlu]

/-- Witness for the amended C5: with last-updated 0 and the clock at 601
the grace period of 600 is exceeded. -/
theorem isUnhealthy_absent_node_witness :
    ({ machFoo with lastUpdated := some 0 } : Machine).lastUpdated = some 0 ∧
    (0 : Int) + timeoutForMachineToHaveNode < 601 ∧
    Target.isUnhealthy
        { mhc := mhcReady300, machine := { machFoo with lastUpdated := some 0 }, node := none } 601
      = .ok (true, 0) :=
  ⟨rfl, by decide,
    (isUnhealthy_absent_node mhcReady300 { machFoo with lastUpdated := some 0 } 601 0
      (by decide)).1 rfl (by decide)⟩

/-! ### Claim C6 -/

/-- C6: a target whose machine has no node reference and an unset
last-updated timestamp evaluates to healthy with the node-acquisition
grace period as its recheck delay, and a reconcile pass over a store
holding exactly that machine under the policy returns that delay as its
requeue value, leaving the store unchanged. -/
theorem reconcile_no_noderef_requeues_grace
    (mhc : MachineHealthCheck) (m : Machine) (now : Int)
    (hsel : selectorValid mhc.selector = true)
    (hmatch : matchesSelector mhc.selector m.labels = true)
    (hns : m.ns = mhc.ns)
    (href : m.nodeRef = none)
    (hlu : m.lastUpdated = none)
    (hphase : derefStringPointer m.phase ≠ machinePhaseFailed) :
    Target.isUnhealthy { mhc := mhc, machine := m, node := none } now
      = .ok (false, timeoutForMachineToHaveNode) ∧
    reconcile { machines := [m], nodes := [], mhcs := [mhc] } mhc.ns mhc.name now
      = .ok ({ machines := [m], nodes := [], mhcs := [mhc] }, timeoutForMachineToHaveNode) := by
  have heval : Target.isUnhealthy { mhc := mhc, machine := m, node := none } now
      = .ok (false, timeoutForMachineToHaveNode) :=
    (isUnhealthy_absent_node mhc m now 0 hphase).2 hlu
  refine ⟨heval, ?_⟩
  have hmach : getMachinesFromMHC { machines := [m], nodes := [], mhcs := [mhc] } mhc
      = .ok [m] := by
    unfold getMachinesFromMHC
    rw [if_pos hsel]
    simp [List.filter_cons, hns, hmatch]
  have htarg : getTargetsFromMHC { machines := [m], nodes := [], mhcs := [mhc] } mhc
      = .ok [{ mhc := mhc, machine := m, node := none }] := by
    unfold getTargetsFromMHC
    rw [hmach]
    simp only [buildTargets, getNodeFromMachine, href]
  have heval2 : evalTargets now [{ mhc := mhc, machine := m, node := none }]
      = .ok [({ mhc := mhc, machine := m, node := none }, false, timeoutForMachineToHaveNode)] := by
    simp only [evalTargets, heval]
  unfold reconcile
  simp only [List.find?_cons, decide_True, Bool.and_self, decide_eq_true_eq]
  simp only [htarg, heval2]
  rfl

/-- Witness for C6 at a concrete input. -/
theorem reconcile_no_noderef_requeues_grace_witness :
    Target.isUnhealthy
        { mhc := mhcReady300, machine := { machFoo with nodeRef := none }, node := none } 1000
      = .ok (false, timeoutForMachineToHaveNode) ∧
    reconcile { machines := [{ machFoo with nodeRef := none }], nodes := [], mhcs := [mhcReady300] }
        mhcReady300.ns mhcReady300.name 1000
      = .ok ({ machines := [{ machFoo with nodeRef := none }], nodes := [], mhcs := [mhcReady300] },
             timeoutForMachineToHaveNode) :=
  reconcile_no_noderef_requeues_grace mhcReady300 { machFoo with nodeRef := none } 1000
    (by decide) (by decide) rfl rfl rfl (by decide)

/-! ### Claim C7 -/

/-- C7: when the rule list starts with a rule whose condition type is
present on the node (so the rule is reached) and whose timeout string does
not parse, the evaluator returns an error and no unhealthy or recheck
decision, and a reconcile pass over a store holding that machine and node
surfaces the same error without performing any remediation (the pass
aborts before the remediation phase, returning no new store). -/
theorem isUnhealthy_bad_timeout_errors
    (mhc : MachineHealthCheck) (m : Machine) (n : Node) (now : Int)
    (ty st tos : String) (rest : List UnhealthyCondition) (c : NodeCondition)
    (hphase : derefStringPointer m.phase ≠ machinePhaseFailed)
    (huid : n.uid ≠ "")
    (hrules : mhc.unhealthyConditions
      = { condType := ty, status := st, timeout := tos } :: rest)
    (hcond : getNodeCondition n ty = some c)
    (hparse : parseDuration tos = none)
    (hsel : selectorValid mhc.selector = true)
    (hmatch : matchesSelector mhc.selector m.labels = true)
    (hns : m.ns = mhc.ns)
    (href : m.nodeRef = some n.name) :
    Target.isUnhealthy { mhc := mhc, machine := m, node := some n } now
      = .error (.invalidTimeout tos) ∧
    reconcile { machines := [m], nodes := [n], mhcs := [mhc] } mhc.ns mhc.name now
      = .error (.invalidTimeout tos) := by
  have heval : Target.isUnhealthy { mhc := mhc, machine := m, node := some n } now
      = .error (.invalidTimeout tos) := by
    rw [isUnhealthy_node_rules mhc m n now hphase huid, hrules]
    unfold evalRules
    rw [hcond, hparse]
  refine ⟨heval, ?_⟩
  have hmach : getMachinesFromMHC { machines := [m], nodes := [n], mhcs := [mhc] } mhc
      = .ok [m] := by
    unfold getMachinesFromMHC
    rw [if_pos hsel]
    simp [List.filter_cons, hns, hmatch]
  have hnode : getNodeFromMachine { machines := [m], nodes := [n], mhcs := [mhc] } m
      = .ok (some n) := by
    unfold getNodeFromMachine
    rw [href]
    simp [List.find?_cons]
  have htarg : getTargetsFromMHC { machines := [m], nodes := [n], mhcs := [mhc] } mhc
      = .ok [{ mhc := mhc, machine := m, node := some n }] := by
    unfold getTargetsFromMHC
    rw [hmach]
    simp only [buildTargets, hnode]
  unfold reconcile
  simp only [List.find?_cons, decide_True, Bool.and_self, decide_eq_true_eq]
  simp only [htarg, evalTargets, heval]

/-- Witness for C7: the rule list Ready/False/badTimeout is reached by a
node whose Ready condition is present. -/
theorem isUnhealthy_bad_timeout_errors_witness :
    Target.isUnhealthy
        { mhc := { mhcReady300 with unhealthyConditions :=
            [{ condType := "Ready", status := "False", timeout := "badTimeout" }] },
          machine := machFoo, node := some nodeReadyFalseAt0 } 1000
      = .error (.invalidTimeout "badTimeout") ∧
    reconcile
        { machines := [machFoo], nodes := [nodeReadyFalseAt0],
          mhcs := [{ mhcReady300 with unhealthyConditions :=
            [{ condType := "Ready", status := "False", timeout := "badTimeout" }] }] }
        mhcReady300.ns mhcReady300.name 1000
      = .error (.invalidTimeout "badTimeout") :=
  isUnhealthy_bad_timeout_errors
    { mhcReady300 with unhealthyConditions :=
        [{ condType := "Ready", status := "False", timeout := "badTimeout" }] }
    machFoo nodeReadyFalseAt0 1000 "Ready" "False" "badTimeout" []
    { condType := "Ready", status := "False", lastTransitionTime := 0 }
    (by decide) (by decide) rfl (by decide) (by decide) (by decide) (by decide) rfl rfl

/-! ### Remediation helpers -/

/-- Whether some stored node of the given name carries the reboot-request
annotation. -/
def storeNodeRebootRequested (s : Store) (name : String) : Bool :=
  s.nodes.any (fun x =>
    x.name = name && (lookupKey x.annotations machineRebootAnnotationKey).isSome)

lemma upsertNode_machines (s : Store) (n : Node) :
    (s.upsertNode n).machines = s.machines := by
  unfold Store.upsertNode
  split <;> rfl

lemma any_replace (l : List Node) (n : Node) (p : Node → Bool)
    (hl : l.any (fun x => x.name = n.name) = true) (hp : p n = true) :
    (l.map (fun x => if x.name = n.name then n else x)).any
      (fun x => x.name = n.name && p x) = true := by
  induction l with
  | nil => simp at hl
  | cons a l ih =>
    simp only [List.any_cons, Bool.or_eq_true, List.map_cons] at hl ⊢
    by_cases ha : a.name = n.name
    · left
      rw [if_pos ha]
      simp [hp]
    · rw [if_neg ha]
      rcases hl with hl | hl
    
      · exact absurd (of_decide_eq_true hl) ha
      · exact Or.inr (ih hl)

lemma any_append_one (l : List Node) (n : Node) (p : Node → Bool) (hp : p n = true) :
    (l ++ [n]).any (fun x => x.name = n.name && p x) = true := by
  simp [List.any_append, hp]

lemma storeNodeRebootRequested_upsert (s : Store) (n : Node)
    (hn : (lookupKey n.annotations machineRebootAnnotationKey).isSome = true) :
    storeNodeRebootRequested (s.upsertNode n) n.name = true := by
  unfold Store.upsertNode storeNodeRebootRequested
  split
  case isTrue h =>
    exact any_replace s.nodes n
      (fun x => (lookupKey x.annotations machineRebootAnnotationKey).isSome) h hn
  case isFalse h =>
    exact any_append_one s.nodes n
      (fun x => (lookupKey x.annotations machineRebootAnnotationKey).isSome) hn

/-! ### Claim C1 -/

/-- C1: remediation of a control-plane target never deletes the machine:
the machine list of the store is unchanged, remediation succeeds, and the
reboot-request annotation is upserted on the target node (either it was
already present on the node or the stored node now carries it). -/
theorem remediate_protects_master (s : Store) (t : Target)
    (hmaster : t.isMaster = true) :
    ∃ s2, remediate s t = .ok s2 ∧ s2.machines = s.machines ∧
      ∀ n, t.node = some n →
        (lookupKey n.annotations machineRebootAnnotationKey).isSome = true ∨
        storeNodeRebootRequested s2 n.name = true := by
  unfold remediate
  rw [if_pos hmaster]
  unfold remediationStrategyReboot
  cases hnode : t.node with
  | none =>
    exact ⟨s, rfl, rfl, fun n hn => by cases hn⟩
  | some n =>
    by_cases hann : (lookupKey n.annotations machineRebootAnnotationKey).isSome = true
    · refine ⟨s, if_pos hann, rfl, fun n2 hn2 => ?_⟩
      cases hn2
      exact Or.inl hann
    · refine ⟨s.upsertNode
        { n with annotations := n.annotations ++ [(machineRebootAnnotationKey, "")] },
        if_neg hann, upsertNode_machines s _, fun n2 hn2 => ?_⟩
      cases hn2
      refine Or.inr ?_
      have hset : (lookupKey
          ({ n with annotations := n.annotations ++ [(machineRebootAnnotationKey, "")]} : Node).annotations
          machineRebootAnnotationKey).isSome = true := by
        simp only [lookupKey, List.find?_append]
        cases hfind : n.annotations.find? (fun p => p.1 = machineRebootAnnotationKey) with
        | some q => simp [lookupKey, hfind] at hann ⊢
        | none => simp [hfind, List.find?_cons]
      exact storeNodeRebootRequested_upsert s _ hset

/-- Witness for C1: a concrete target whose node carries the control-plane
label gets the reboot annotation, keeping the machine list intact. -/
theorem remediate_protects_master_witness :
    Target.isMaster
      { mhc := mhcReady300, machine := machFoo,
        node := some { name := "n1", uid := "u1", labels := [(nodeMasterLabel, "")],
                       annotations := [], conditions := [] } } = true ∧
    ∃ s2, remediate { machines := [machFoo], nodes := [], mhcs := [] }
        { mhc := mhcReady300, machine := machFoo,
          node := some { name := "n1", uid := "u1", labels := [(nodeMasterLabel, "")],
                         annotations := [], conditions := [] } } = .ok s2 ∧
      s2.machines = ({ machines := [machFoo], nodes := [], mhcs := [] } : Store).machines ∧
      ∀ n, ({ mhc := mhcReady300, machine := machFoo,
              node := some { name := "n1", uid := "u1", labels := [(nodeMasterLabel, "")],
                             annotations := [], conditions := [] } } : Target).node = some n →
        (lookupKey n.annotations machineRebootAnnotationKey).isSome = true ∨
        storeNodeRebootRequested s2 n.name = true :=
  ⟨by decide,
    remediate_protects_master { machines := [machFoo], nodes := [], mhcs := [] }
      { mhc := mhcReady300, machine := machFoo,
        node := some { name := "n1", uid := "u1", labels := [(nodeMasterLabel, "")],
                       annotations := [], conditions := [] } } (by decide)⟩

/-- Remediation by reboot never touches the machine list. -/
lemma reboot_machines (s : Store) (node : Option Node) :
    ∃ s2, remediationStrategyReboot s node = .ok s2 ∧ s2.machines = s.machines := by
  unfold remediationStrategyReboot
  cases node with
  | none => exact ⟨s, rfl, rfl⟩
  | some n =>
    by_cases hann : (lookupKey n.annotations machineRebootAnnotationKey).isSome = true
    · exact ⟨s, if_pos hann, rfl⟩
    · exact ⟨_, if_neg hann, upsertNode_machines s _⟩

/-! ### Claim C8 -/

/-- A machine otherwise identical to machFoo but with no owner references. -/
def machNoOwner : Machine := { machFoo with ownerReferences := [] }

/-- C8 counterexample: an unhealthy non-control-plane target whose machine
lacks a MachineSet owner reference is not deleted: remediation returns the
store unchanged and the machine is still retrievable, contradicting the
claim that every unhealthy non-control-plane machine is deleted. -/
theorem remediate_nonmaster_counterexample :
    Target.isUnhealthy
        { mhc := mhcReady300, machine := machNoOwner, node := some nodeReadyFalseAt0 } 400
      = .ok (true, 0) ∧
    Target.isMaster
        { mhc := mhcReady300, machine := machNoOwner, node := some nodeReadyFalseAt0 } = false ∧
    remediate { machines := [machNoOwner], nodes := [nodeReadyFalseAt0], mhcs := [] }
        { mhc := mhcReady300, machine := machNoOwner, node := some nodeReadyFalseAt0 }
      = .ok { machines := [machNoOwner], nodes := [nodeReadyFalseAt0], mhcs := [] } ∧
    Store.getMachine { machines := [machNoOwner], nodes := [nodeReadyFalseAt0], mhcs := [] }
        machNoOwner.ns machNoOwner.name = some machNoOwner := by
  refine ⟨by decide, by decide, by decide, by decide⟩

/-- C8 amended: remediation of a non-control-plane target whose machine
has a MachineSet owner deletes the machine: afterwards it is no longer
retrievable by namespace and name, and no machine is created (every
machine of the new store was already present). -/
theorem remediate_deletes_nonmaster (s : Store) (t : Target)
    (hmaster : t.isMaster = false) (howner : t.hasMachineSetOwner = true) :
    ∃ s2, remediate s t = .ok s2 ∧
      Store.getMachine s2 t.machine.ns t.machine.name = none ∧
      ∀ m ∈ s2.machines, m ∈ s.machines := by
  by_cases hpresent :
      (s.machines.any (fun m => m.ns = t.machine.ns && m.name = t.machine.name)) = true
  · refine ⟨{ s with
              machines := s.machines.filter
                (fun m => !(m.ns = t.machine.ns && m.name = t.machine.name)) },
      ?_, ?_, ?_⟩
    · unfold remediate
      rw [if_neg (by simp [hmaster]), if_pos howner]
      unfold Store.deleteMachine
      rw [if_pos hpresent]
    · unfold Store.getMachine
      apply List.find?_eq_none.mpr
      intro x hx
      have hx2 := (List.mem_filter.mp hx).2
      simp only [Bool.not_eq_true', Bool.and_eq_false_iff, decide_eq_false_iff_not] at hx2
      simp only [Bool.and_eq_true, decide_eq_true_eq, not_and]
      intro h1 h2
      rcases hx2 with hx2 | hx2 <;> exact absurd (by assumption) hx2
    · intro m hm
      exact (List.mem_filter.mp hm).1
  · refine ⟨s, ?_, ?_, fun m hm => hm⟩
    · unfold remediate
      rw [if_neg (by simp [hmaster]), if_pos howner]
      unfold Store.deleteMachine
      rw [if_neg hpresent]
    · unfold Store.getMachine
      apply List.find?_eq_none.mpr
      intro x hx hpx
      exact hpresent (List.any_eq_true.mpr ⟨x, hx, hpx⟩)

/-- Witness for the amended C8 at a concrete input: the one stored machine
is deleted. -/
theorem remediate_deletes_nonmaster_witness :
    Target.isMaster { mhc := mhcReady300, machine := machFoo, node := some nodeReadyFalseAt0 }
        = false ∧
    Target.hasMachineSetOwner
        { mhc := mhcReady300, machine := machFoo, node := some nodeReadyFalseAt0 } = true ∧
    ∃ s2, remediate { machines := [machFoo], nodes := [nodeReadyFalseAt0], mhcs := [] }
        { mhc := mhcReady300, machine := machFoo, node := some nodeReadyFalseAt0 } = .ok s2 ∧
      Store.getMachine s2 machFoo.ns machFoo.name = none ∧
      ∀ m ∈ s2.machines,
        m ∈ ({ machines := [machFoo], nodes := [nodeReadyFalseAt0], mhcs := [] } : Store).machines :=
  ⟨by decide, by decide,
    remediate_deletes_nonmaster { machines := [machFoo], nodes := [nodeReadyFalseAt0], mhcs := [] }
      { mhc := mhcReady300, machine := machFoo, node := some nodeReadyFalseAt0 }
      (by decide) (by decide)⟩

/-! ### Claim C10 -/

/-- C10: a target whose machine has no owner reference of kind MachineSet
is reported ownerless by hasMachineSetOwner, remediation never deletes it
(the machine list is unchanged by any remediation of such a target), and a
reconcile pass over a store holding such an unhealthy machine returns
success with the ownerless machine intact. -/
theorem no_machineset_owner_never_deleted (s : Store) (t : Target)
    (h : ∀ o ∈ t.machine.ownerReferences, o.kind ≠ ownerControllerKind) :
    t.hasMachineSetOwner = false ∧
    (∃ s2, remediate s t = .ok s2 ∧ s2.machines = s.machines) ∧
    reconcile { machines := [machNoOwner], nodes := [nodeReadyFalseAt0], mhcs := [mhcReady300] }
        mhcReady300.ns mhcReady300.name 400
      = .ok ({ machines := [machNoOwner], nodes := [nodeReadyFalseAt0], mhcs := [mhcReady300] }, 0) := by
  have howner : t.hasMachineSetOwner = false := by
    unfold Target.hasMachineSetOwner
    rw [List.any_eq_false]
    intro o ho
    simp [h o ho]
  refine ⟨howner, ?_, by decide⟩
  by_cases hmaster : t.isMaster = true
  · unfold remediate
    rw [if_pos hmaster]
    exact reboot_machines s t.node
  · refine ⟨s, ?_, rfl⟩
    unfold remediate
    rw [if_neg hmaster, if_neg (by simp [howner])]

/-- Witness for C10 at a concrete ownerless machine. -/
theorem no_machineset_owner_never_deleted_witness :
    (∀ o ∈ ({ mhc := mhcReady300, machine := machNoOwner, node := some nodeReadyFalseAt0 }
        : Target).machine.ownerReferences, o.kind ≠ ownerControllerKind) ∧
    Target.hasMachineSetOwner
        { mhc := mhcReady300, machine := machNoOwner, node := some nodeReadyFalseAt0 } = false ∧
    (∃ s2, remediate { machines := [machNoOwner], nodes := [], mhcs := [] }
        { mhc := mhcReady300, machine := machNoOwner, node := some nodeReadyFalseAt0 } = .ok s2 ∧
      s2.machines = ({ machines := [machNoOwner], nodes := [], mhcs := [] } : Store).machines) ∧
    reconcile { machines := [machNoOwner], nodes := [nodeReadyFalseAt0], mhcs := [mhcReady300] }
        mhcReady300.ns mhcReady300.name 400
      = .ok ({ machines := [machNoOwner], nodes := [nodeReadyFalseAt0], mhcs := [mhcReady300] }, 0) := by
  have h := no_machineset_owner_never_deleted { machines := [machNoOwner], nodes := [], mhcs := [] }
    { mhc := mhcReady300, machine := machNoOwner, node := some nodeReadyFalseAt0 }
    (by decide)
  exact ⟨by decide, h.1, h.2.1, h.2.2⟩

/-! ### Claim C9 -/

lemma map_replace_idem (l : List Node) (n : Node) :
    ((l.map (fun x => if x.name = n.name then n else x)).map
        (fun x => if x.name = n.name then n else x))
      = l.map (fun x => if x.name = n.name then n else x) := by
  rw [List.map_map]
  have hcomp : ((fun x => if x.name = n.name then n else x) ∘
      (fun x => if x.name = n.name then n else x))
      = (fun x : Node => if x.name = n.name then n else x) := by
    funext x
    by_cases hx : x.name = n.name
    · simp [hx]
    · simp [hx]
  rw [hcomp]

lemma any_name_map_replace (l : List Node) (n : Node)
    (hl : l.any (fun x => x.name = n.name) = true) :
    (l.map (fun x => if x.name = n.name then n else x)).any
      (fun x => x.name = n.name) = true := by
  induction l with
  | nil => simp at hl
  | cons a l ih =>
    simp only [List.map_cons, List.any_cons, Bool.or_eq_true] at hl ⊢
    by_cases ha : a.name = n.name
    · left
      rw [if_pos ha]
      simp
    · rw [if_neg ha]
      rcases hl with hl | hl
      · exact absurd (of_decide_eq_true hl) ha
      · exact Or.inr (ih hl)

lemma map_replace_noop (l : List Node) (n : Node)
    (hl : l.any (fun x => x.name = n.name) = false) :
    l.map (fun x => if x.name = n.name then n else x) = l := by
  induction l with
  | nil => rfl
  | cons a l ih =>
    simp only [List.any_cons, Bool.or_eq_false_iff, decide_eq_false_iff_not] at hl
    simp only [List.map_cons, if_neg hl.1, ih hl.2]

lemma upsertNode_idem (s : Store) (n : Node) :
    (s.upsertNode n).upsertNode n = s.upsertNode n := by
  by_cases h : s.nodes.any (fun x => x.name = n.name) = true
  · have h1 : s.upsertNode n
        = { s with nodes := s.nodes.map (fun x => if x.name = n.name then n else x) } := by
      unfold Store.upsertNode
      rw [if_pos h]
    rw [h1]
    unfold Store.upsertNode
    rw [if_pos (any_name_map_replace s.nodes n h)]
    simp only [map_replace_idem]
  · have h1 : s.upsertNode n = { s with nodes := s.nodes ++ [n] } := by
      unfold Store.upsertNode
      rw [if_neg h]
    rw [h1]
    unfold Store.upsertNode
    rw [if_pos (by simp [List.any_append])]
    simp only [List.map_append, map_replace_noop s.nodes n (by simpa using h)]
    simp

lemma reboot_some (s : Store) (n : Node) :
    remediationStrategyReboot s (some n)
      = if (lookupKey n.annotations machineRebootAnnotationKey).isSome = true then .ok s
        else .ok (s.upsertNode
          { n with annotations := n.annotations ++ [(machineRebootAnnotationKey, "")] }) := rfl

lemma reboot_idempotent (s s2 : Store) (node : Option Node)
    (h : remediationStrategyReboot s node = .ok s2) :
    remediationStrategyReboot s2 node = .ok s2 := by
  cases node with
  | none =>
    have h0 : (Except.ok s : Except StoreError Store) = Except.ok s2 := h
    cases h0
    rfl
  | some n =>
    rw [reboot_some] at h ⊢
    by_cases hann : (lookupKey n.annotations machineRebootAnnotationKey).isSome = true
    · rw [if_pos hann] at h ⊢
    · rw [if_neg hann] at h ⊢
      cases h
      rw [upsertNode_idem]

lemma any_filter_not (l : List Machine) (p : Machine → Bool) :
    (l.filter (fun m => !(p m))).any p = false := by
  rw [List.any_eq_false]
  intro x hx
  have h2 := (List.mem_filter.mp hx).2
  simp only [Bool.not_eq_true'] at h2
  simp [h2]

lemma deleteMachine_of_filtered (l : List Machine) (s : Store) (ns name : String)
    (h : s.machines = l.filter (fun m => !(m.ns = ns && m.name = name))) :
    Store.deleteMachine s ns name = .error .notFound := by
  have hany : s.machines.any (fun m => m.ns = ns && m.name = name) = false := by
    rw [h]
    exact any_filter_not l (fun m => m.ns = ns && m.name = name)
  unfold Store.deleteMachine
  rw [hany]
  simp

/-- C9: remediation is idempotent: whenever a remediation pass succeeds,
running it again on the same target from the resulting store succeeds and
changes nothing (the reboot annotation is already in place for a
control-plane target; a deleted machine is tolerated as already gone). -/
theorem remediate_idempotent (s : Store) (t : Target) (s2 : Store)
    (h : remediate s t = .ok s2) : remediate s2 t = .ok s2 := by
  unfold remediate at h ⊢
  by_cases hmaster : t.isMaster = true
  · rw [if_pos hmaster] at h ⊢
    exact reboot_idempotent s s2 t.node h
  · rw [if_neg hmaster] at h ⊢
    by_cases howner : t.hasMachineSetOwner = true
    · rw [if_pos howner] at h ⊢
      by_cases hpres : (s.machines.any
          (fun m => m.ns = t.machine.ns && m.name = t.machine.name)) = true
      · unfold Store.deleteMachine at h
        rw [if_pos hpres] at h
        cases h
        rw [deleteMachine_of_filtered s.machines _ t.machine.ns t.machine.name rfl]
      · unfold Store.deleteMachine at h
        rw [if_neg hpres] at h
        cases h
        unfold Store.deleteMachine
        rw [if_neg hpres]
    · rw [if_neg howner] at h ⊢

/-- A node carrying the control-plane marker label and no annotations. -/
def nodeWithMasterLabel : Node :=
  { name := "n1", uid := "u1", labels := [(nodeMasterLabel, "")],
    annotations := [], conditions := [] }

/-- Witness for C9 at a concrete control-plane target: the first call adds
the reboot annotation, the second is a no-op on the resulting store. -/
theorem remediate_idempotent_witness :
    remediate { machines := [machFoo], nodes := [nodeWithMasterLabel], mhcs := [] }
        { mhc := mhcReady300, machine := machFoo, node := some nodeWithMasterLabel }
      = .ok { machines := [machFoo],
              nodes := [{ nodeWithMasterLabel with
                          annotations := [(machineRebootAnnotationKey, "")] }],
              mhcs := [] } ∧
    remediate { machines := [machFoo],
                nodes := [{ nodeWithMasterLabel with
                            annotations := [(machineRebootAnnotationKey, "")] }],
                mhcs := [] }
        { mhc := mhcReady300, machine := machFoo, node := some nodeWithMasterLabel }
      = .ok { machines := [machFoo],
              nodes := [{ nodeWithMasterLabel with
                          annotations := [(machineRebootAnnotationKey, "")] }],
              mhcs := [] } :=
  ⟨by decide,
    remediate_idempotent { machines := [machFoo], nodes := [nodeWithMasterLabel], mhcs := [] }
      { mhc := mhcReady300, machine := machFoo, node := some nodeWithMasterLabel }
      { machines := [machFoo],
        nodes := [{ nodeWithMasterLabel with
                    annotations := [(machineRebootAnnotationKey, "")] }],
        mhcs := [] }
      (by decide)⟩

/-! ### Claim C3 -/

/-- The per-machine node resolution either succeeds or fails with
not-found; no other error is possible. -/
lemma getNodeFromMachine_cases (s : Store) (m : Machine) :
    getNodeFromMachine s m = .error .notFound ∨
    ∃ onode, getNodeFromMachine s m = .ok onode := by
  cases hr : m.nodeRef with
  | none => exact Or.inr ⟨none, by simp only [getNodeFromMachine, hr]⟩
  | some ref =>
    cases hf : s.nodes.find? (fun n => n.name = ref) with
    | none => exact Or.inl (by simp only [getNodeFromMachine, hr, hf])
    | some n => exact Or.inr ⟨some n, by simp only [getNodeFromMachine, hr, hf]⟩

/-- Building targets never drops or invents a machine: the machines of the
produced targets are exactly the machines given, in order. -/
lemma buildTargets_machines (s : Store) (mhc : MachineHealthCheck) (ms : List Machine) :
    ∃ ts, buildTargets s mhc ms = .ok ts ∧ ts.map (fun t => t.machine) = ms := by
  induction ms with
  | nil => exact ⟨[], rfl, rfl⟩
  | cons m rest ih =>
    obtain ⟨ts, hts, hmap⟩ := ih
    rcases getNodeFromMachine_cases s m with hg | ⟨onode, hg⟩
    · refine ⟨{ mhc := mhc, machine := m, node := some (placeholderNode m) } :: ts, ?_, ?_⟩
      · simp only [buildTargets, hg, hts]
      · simp [hmap]
    · refine ⟨{ mhc := mhc, machine := m, node := onode } :: ts, ?_, ?_⟩
      · simp only [buildTargets, hg, hts]
      · simp [hmap]

/-- C3: target resolution for a policy with a well-formed selector returns
one target per machine of the policy's namespace whose labels satisfy the
selector, no more and no fewer, in machine listing order; a malformed
selector yields an error and no targets. -/
theorem resolveTargets_exact (s : Store) (mhc : MachineHealthCheck) :
    if selectorValid mhc.selector = true then
      ∃ ts, getTargetsFromMHC s mhc = .ok ts ∧
        ts.map (fun t => t.machine)
          = s.machines.filter
              (fun m => m.ns = mhc.ns && matchesSelector mhc.selector m.labels)
    else getTargetsFromMHC s mhc = .error .invalidSelector := by
  by_cases hsel : selectorValid mhc.selector = true
  · rw [if_pos hsel]
    obtain ⟨ts, hts, hmap⟩ := buildTargets_machines s mhc
      (s.machines.filter (fun m => m.ns = mhc.ns && matchesSelector mhc.selector m.labels))
    have hm : getMachinesFromMHC s mhc
        = .ok (s.machines.filter
            (fun m => m.ns = mhc.ns && matchesSelector mhc.selector m.labels)) := by
      unfold getMachinesFromMHC
      rw [if_pos hsel]
    refine ⟨ts, ?_, hmap⟩
    unfold getTargetsFromMHC
    rw [hm]
    exact hts
  · rw [if_neg hsel]
    have hm : getMachinesFromMHC s mhc = .error .invalidSelector := by
      unfold getMachinesFromMHC
      rw [if_neg hsel]
    unfold getTargetsFromMHC
    rw [hm]

/-! ### Claim C4 -/

/-- C4 counterexample: with a machine whose node reference points at a node
absent from the store, the per-machine resolution step errors, yet target
resolution as a whole does not propagate that error: it returns a target
with an empty placeholder node instead. -/
theorem node_notfound_counterexample :
    getNodeFromMachine { machines := [machFoo], nodes := [], mhcs := [mhcReady300] } machFoo
      = .error .notFound ∧
    getTargetsFromMHC { machines := [machFoo], nodes := [], mhcs := [mhcReady300] } mhcReady300
      = .ok [{ mhc := mhcReady300, machine := machFoo,
               node := some (placeholderNode machFoo) }] ∧
    getTargetsFromMHC { machines := [machFoo], nodes := [], mhcs := [mhcReady300] } mhcReady300
      ≠ .error .notFound :=
  ⟨by decide, by decide, by decide⟩

/-- C4 amended: the per-machine resolution step getNodeFromMachine reports
the missing referenced node as a not-found error, while getTargetsFromMHC
absorbs exactly that error into a target carrying the empty placeholder
node (judged unhealthy downstream) and still succeeds. -/
theorem getNodeFromMachine_notfound_error (s : Store) (mhc : MachineHealthCheck)
    (m : Machine) (ref : String)
    (href : m.nodeRef = some ref)
    (habs : s.nodes.any (fun n => n.name = ref) = false)
    (hsel : selectorValid mhc.selector = true)
    (hmatch : matchesSelector mhc.selector m.labels = true)
    (hns : m.ns = mhc.ns)
    (hmachines : s.machines = [m]) :
    getNodeFromMachine s m = .error .notFound ∧
    getTargetsFromMHC s mhc
      = .ok [{ mhc := mhc, machine := m, node := some (placeholderNode m) }] := by
  have hfind : s.nodes.find? (fun n => n.name = ref) = none := by
    apply List.find?_eq_none.mpr
    intro x hx
    have h2 := List.any_eq_false.mp habs x hx
    simpa using h2
  have hnode : getNodeFromMachine s m = .error .notFound := by
    simp only [getNodeFromMachine, href, hfind]
  refine ⟨hnode, ?_⟩
  have hm : getMachinesFromMHC s mhc = .ok [m] := by
    unfold getMachinesFromMHC
    rw [if_pos hsel, hmachines]
    simp [List.filter_cons, hns, hmatch]
  unfold getTargetsFromMHC
  rw [hm]
  simp only [buildTargets, hnode]

/-- Witness for the amended C4 at a concrete input. -/
theorem getNodeFromMachine_notfound_error_witness :
    getNodeFromMachine { machines := [machFoo], nodes := [], mhcs := [] } machFoo
      = .error .notFound ∧
    getTargetsFromMHC { machines := [machFoo], nodes := [], mhcs := [] } mhcReady300
      = .ok [{ mhc := mhcReady300, machine := machFoo,
               node := some (placeholderNode machFoo) }] :=
  getNodeFromMachine_notfound_error { machines := [machFoo], nodes := [], mhcs := [] }
    mhcReady300 machFoo "n1" rfl (by decide) (by decide) (by decide) rfl rfl

end MachineHealthCheckModel
